import Mathlib

/-!
Shallow embedding of the request-processing pipeline and outbound transport layer of
the DnsLibs filtering DNS forwarding proxy, translated from
`src/net/outbound_socks_proxy.cpp` (which contains both the `SocksOProxy`
implementation and the `DnsForwarder` pipeline) and the surrounding sources.

Conventions:
* machine integers are modelled as `Nat` (byte values as `Fin 256`);
* `double` arithmetic of the weighted random selection is modelled over `ℚ`;
* fallible operations return `Except`/`Option`;
* external collaborators (the ldns codec, the filter engine, the response cache,
  the random engine) are oracles passed in as data;
* the single-threaded cooperative model is embedded without the shutdown token
  (no suspension ever observes an expired guard).

Definitions marked "Modelled from the spec" embed repository code that is not under
`src/` (only its callers are); they follow the specification text.
-/

namespace DnsLibs

/-- Byte values, as found in a raw DNS message. -/
abbrev Byte := Fin 256

/-- Transport protocols of `utils::TransportProtocol` that the forwarder distinguishes. -/
inductive TransportProtocol where
  | udp
  | tcp
  deriving DecidableEq, Repr

/-- The `DnsMessageInfo` accompanying a client message: transport and peer address
(the peer is abstracted to a number, only its identity matters). -/
structure DnsMessageInfo where
  proto : TransportProtocol
  peername : Nat
  deriving DecidableEq, Repr

/-- DNS response codes distinguished by the pipeline. -/
inductive Rcode where
  | noerror
  | formerr
  | servfail
  | nxdomain
  | refused
  | other (code : Nat)
  deriving DecidableEq, Repr

/-- Resource-record types distinguished by the pipeline. -/
inductive RrType where
  | a
  | aaaa
  | cname
  | soa
  | other (code : Nat)
  deriving DecidableEq, Repr

/-- A resource record, reduced to the attributes the claims mention. -/
structure Rr where
  rtype : RrType
  ttl : Nat
  deriving DecidableEq, Repr

/-- A question record: owner name (absolute, with trailing dot, as printed by
`ldns_rdf2str`) and type. -/
structure Question where
  name : String
  qtype : RrType
  deriving DecidableEq, Repr

/-- A decoded DNS message (`ldns_pkt`), reduced to the attributes the claims mention.
`wireLen` is the length of the wire encoding as reported by the codec collaborator;
`edns` is `some sz` when the packet carries an EDNS OPT record advertising UDP size `sz`. -/
structure Pkt where
  pktId : Nat
  questions : List Question
  answers : List Rr
  authority : List Rr
  rcode : Rcode
  tc : Bool
  edns : Option Nat
  wireLen : Nat
  deriving DecidableEq, Repr

/-- Error kinds (`DnsError::AE_*`) that the embedded code inspects. -/
inductive DnsError where
  | decodeError
  | encodeError
  | connectionClosed
  | curlError
  | timedOut
  | exchangeError
  | shuttingDown
  | internalError
  deriving DecidableEq, Repr

/-- Modelled from the spec: `ResponseHelpers::create_formerr_response` is declared in
`response_helpers.h`, which is not under `src/`. Per spec section 4.6 step 1, the FORMERR
response carries the 16-bit transport id read from the first two bytes of the input. -/
def create_formerr_response (pktId : Nat) : Pkt :=
  { pktId := pktId, questions := [], answers := [], authority := [],
    rcode := .formerr, tc := false, edns := none, wireLen := 12 }

/-- Modelled from the spec: `ResponseHelpers::create_servfail_response` is not under
`src/`. It builds a SERVFAIL response from the request (same id and question). -/
def create_servfail_response (request : Pkt) : Pkt :=
  { pktId := request.pktId, questions := request.questions, answers := [], authority := [],
    rcode := .servfail, tc := false, edns := none, wireLen := 12 }

/-- Modelled from the spec: `ResponseHelpers::create_nxdomain_response` is not under
`src/`. It builds an NXDOMAIN response from the request (used for the Mozilla canary). -/
def create_nxdomain_response (request : Pkt) : Pkt :=
  { pktId := request.pktId, questions := request.questions, answers := [], authority := [],
    rcode := .nxdomain, tc := false, edns := none, wireLen := 12 }

/-- Modelled from the spec: `ResponseHelpers::create_soa_response` is not under `src/`.
Per spec section 4.6 step 5 and section 8 scenario 2, it is a NOERROR response with zero
answers and one SOA authority record whose TTL is the given retry time. -/
def create_soa_response (request : Pkt) (retrySecs : Nat) : Pkt :=
  { pktId := request.pktId, questions := request.questions, answers := [],
    authority := [{ rtype := .soa, ttl := retrySecs }], rcode := .noerror, tc := false,
    edns := none, wireLen := 12 }

/-- Modelled from the spec: `dns::ldns_pkt_truncate` (declared in `dns_truncate.h`) is not
under `src/`. Per spec section 8 (Truncation), when the wire length exceeds `maxSize` the
packet is truncated to at most `maxSize` bytes and the TC bit is set; otherwise it is
returned unchanged. Returns the packet and whether truncation happened. -/
def ldns_pkt_truncate (response : Pkt) (maxSize : Nat) : Pkt × Bool :=
  if maxSize < response.wireLen then
    ({ response with tc := true, wireLen := maxSize }, true)
  else (response, false)

/-- Embeds `DnsForwarder::truncate_response` (dns_forwarder.cpp): truncation applies only
when the message info is present and the transport is UDP; the size limit is the EDNS UDP
size advertised by the request when the request carries EDNS, and 512 otherwise. -/
def truncate_response (response : Pkt) (request : Pkt) (info : Option DnsMessageInfo) : Pkt :=
  match info with
  | some i =>
    if i.proto = .udp then
      let maxSize : Nat :=
        match request.edns with
        | some sz => sz
        | none => 512
      (ldns_pkt_truncate response maxSize).1
    else response
  | none => response

/-- Embeds `read_uint16_be` (dns_forwarder.cpp): big-endian 16-bit read of the first two
bytes. -/
def read_uint16_be (pkt : List Byte) : Nat :=
  (pkt.headD 0).val * 256 + ((pkt.tail).headD 0).val

instance {ε α : Type} [DecidableEq ε] [DecidableEq α] : DecidableEq (Except ε α) := fun x y =>
  match x, y with
  | .ok a, .ok b => if h : a = b then .isTrue (by rw [h]) else .isFalse (by simp [h])
  | .error a, .error b => if h : a = b then .isTrue (by rw [h]) else .isFalse (by simp [h])
  | .ok _, .error _ => .isFalse (by simp)
  | .error _, .ok _ => .isFalse (by simp)

/-- A single exchange attempt as observed from an upstream: the outcome (`ok` response or
transport error) together with the elapsed time of the attempt, in milliseconds. -/
structure AttemptOutcome where
  result : Except DnsError Pkt
  elapsedMs : Nat
  deriving DecidableEq, Repr

/-- A live upstream: its stable id, its RTT estimate (milliseconds) and the outcomes its
transport will deliver for the successive `exchange` calls of the current request. -/
structure Upstream where
  usId : Nat
  rtt : Option Nat
  attempts : List AttemptOutcome
  deriving DecidableEq, Repr

/-- Outcome of the `n`-th `Upstream::exchange` call of this request. -/
def Upstream.attempt (u : Upstream) (n : Nat) : AttemptOutcome :=
  u.attempts.getD n { result := .error .internalError, elapsedMs := 0 }

/-- Modelled from the spec: `Upstream::update_rtt_estimate` (upstream.h) is not under
`src/`. Per spec sections 3 and 4.3, the RTT estimate is a single option updated on every
attempt with the given value. -/
def update_rtt_estimate (u : Upstream) (value : Nat) : Upstream :=
  { u with rtt := some value }

/-- Errors on which `DnsForwarder::do_upstream_exchange` gives the upstream one more
chance: `AE_CONNECTION_CLOSED` and `AE_CURL_ERROR` (the generic I/O error of the
HTTP-based transports). -/
def retriableError : DnsError → Bool
  | .connectionClosed => true
  | .curlError => true
  | _ => false

/-- Result of one `DnsForwarder::do_upstream_exchange` call: the final exchange result,
the upstream with its RTT estimate updated, and how many `Upstream::exchange` attempts
were made. -/
structure SingleExchange where
  result : Except DnsError Pkt
  upstream : Upstream
  attemptsMade : Nat
  deriving DecidableEq, Repr

/-- Embeds `DnsForwarder::do_upstream_exchange` (dns_forwarder.cpp): perform the
exchange; if it fails with `AE_CONNECTION_CLOSED` or `AE_CURL_ERROR`, retry once on the
same upstream; finally update the RTT estimate with the elapsed time of the final attempt
on success, and with the caller-provided penalty `errorRtt` on failure. -/
def do_upstream_exchange (u : Upstream) (errorRtt : Nat) : SingleExchange :=
  match (u.attempt 0).result with
  | .ok p =>
      { result := .ok p, upstream := update_rtt_estimate u (u.attempt 0).elapsedMs,
        attemptsMade := 1 }
  | .error e =>
    if retriableError e then
      match (u.attempt 1).result with
      | .ok p =>
          { result := .ok p, upstream := update_rtt_estimate u (u.attempt 1).elapsedMs,
            attemptsMade := 2 }
      | .error e1 =>
          { result := .error e1, upstream := update_rtt_estimate u errorRtt, attemptsMade := 2 }
    else
      { result := .error e, upstream := update_rtt_estimate u errorRtt, attemptsMade := 1 }

/-- The element type of the result vector sorted in `DnsForwarder::do_parallel_exchange`:
an exchange result together with the id of the upstream that produced it (a raw pointer
in the source, abstracted to the upstream id). -/
structure UpstreamExchangeResult where
  result : Except DnsError Pkt
  upstream : Option Nat
  deriving DecidableEq, Repr

/-- Embeds the comparator lambda passed to `std::sort` in
`DnsForwarder::do_parallel_exchange` when `wait_all` is true (outbound_socks_proxy.cpp
lines 1929-1945): an error result never wins; a non-error result always wins against an
error result; among equal rcodes, NOERROR results with more answers win and everything
else ties; among different rcodes, NOERROR wins. -/
def waitAllLess (l r : UpstreamExchangeResult) : Bool :=
  match l.result with
  | .error _ => false
  | .ok lp =>
    match r.result with
    | .error _ => true
    | .ok rp =>
      if lp.rcode = rp.rcode then
        if lp.rcode = .noerror then decide (rp.answers.length < lp.answers.length)
        else false
      else decide (lp.rcode = .noerror)

/-- Ranking key implicit in `waitAllLess`: 0 for errors, 1 for non-NOERROR responses, and
2 plus the answer count for NOERROR responses. `waitAllLess l r = true` exactly when
`resKey r < resKey l`. -/
def resKey (x : UpstreamExchangeResult) : Nat :=
  match x.result with
  | .error _ => 0
  | .ok p => if p.rcode = .noerror then 2 + p.answers.length else 1

/-- Postcondition of `std::sort`: the range is sorted with respect to the comparator,
meaning no element compares before its predecessor. `std::sort` is not stable, so any
permutation of the input satisfying this may be produced. -/
def StdSorted (cmp : α → α → Bool) (l : List α) : Prop :=
  List.Chain' (fun a b => cmp b a = false) l

/-- Relational embedding of `DnsForwarder::do_parallel_exchange` with `wait_all = true`,
after all per-upstream exchanges have completed: the collected results are sorted by
`std::sort` with `waitAllLess` and the front element is returned. -/
def waitAllWinner (results : List UpstreamExchangeResult) (w : UpstreamExchangeResult) : Prop :=
  ∃ sorted : List UpstreamExchangeResult,
    sorted.Perm results ∧ StdSorted waitAllLess sorted ∧ sorted.head? = some w

/-- The selection rule asserted by the claim for parallel `wait_all` (spec section 4.7
rules 1-4 read as a strict total order): the element with the highest key, earliest
position in the input order breaking all remaining ties. -/
def claimWinner (results : List UpstreamExchangeResult) : Option UpstreamExchangeResult :=
  results.foldl
    (fun acc r =>
      match acc with
      | none => some r
      | some a => if resKey a < resKey r then some r else acc)
    none

/-- Embeds `collect_upstreams` (dns_forwarder.cpp): the candidate pool together with the
maximum RTT estimate across it, an unset estimate counting as 0 milliseconds. -/
def collect_upstreams (src : List Upstream) : List Upstream × Nat :=
  (src, src.foldl (fun m u => max m (u.rtt.getD 0)) 0)

/-- Embeds the candidate-scanning `for` loop inside the weighted random selection of
`DnsForwarder::do_upstreams_exchange` (lines 1998-2005): walk the candidates in order;
stop at the first upstream whose RTT estimate is unset and report its index; divide the
weight of every candidate scanned before it by that candidate current RTT. Note that the
source performs this division anew on every scan, so weights accumulate divisions across
rounds of the selection loop. Real (`double`) arithmetic is modelled over `ℚ`. -/
def scanCandidates : List Upstream → List ℚ → Option Nat × List ℚ
  | [], ws => (none, ws)
  | u :: us, ws =>
    match u.rtt with
    | none => (some 0, ws)
    | some r =>
      let scanned := scanCandidates us ws.tail
      (scanned.1.map (· + 1), (ws.headD 1 / (r : ℚ)) :: scanned.2)

/-- Embeds the swap-with-back-and-pop disqualification step of the weighted selection
loop (lines 2021-2025). -/
def swapRemove : List α → Nat → List α
  | [], _ => []
  | a :: as, i => (((a :: as).set i (List.getLast (a :: as) (List.cons_ne_nil a as))).dropLast)

/-- How the weighted random selection loop ended: an early return (a response, or a
timeout error), or exhaustion of the candidate pool with the last error observed. -/
inductive WeightedOutcome where
  | returned (result : Except DnsError Pkt)
  | exhausted (lastErr : Option DnsError)
  deriving DecidableEq, Repr

/-- Trace of one run of the weighted random selection loop: the weight vector (with the
pool it referred to) used at each random draw, the upstreams queried in order together
with the penalty RTT passed to each exchange, and the outcome. -/
structure WeightedRun where
  draws : List (List Upstream × List ℚ)
  queried : List (Nat × Nat)
  outcome : WeightedOutcome
  deriving DecidableEq, Repr

/-- Embeds the weighted random selection loop of `DnsForwarder::do_upstreams_exchange`
(lines 1993-2026): scan the candidates (selecting the first untried one if any, otherwise
drawing from the accumulated weights via the random oracle, clamped to the pool); perform
the exchange with the `2 * max_rtt` penalty; return on success or on a timeout error;
otherwise disqualify the selected candidate by swap-with-back-and-pop and continue.
The loop runs while the pool is non-empty; since each disqualification shrinks the pool
by exactly one, the structural `fuel` parameter (the pool length at entry, see
`weightedLoop`) never runs out before the pool does. -/
def weightedLoopAux (penalty : Nat) :
    Nat → List Nat → List Upstream → List ℚ → Option DnsError → WeightedRun
  | 0, _, _, _, le => { draws := [], queried := [], outcome := .exhausted le }
  | fuel + 1, oracle, pool, weights, le =>
    match pool with
    | [] => { draws := [], queried := [], outcome := .exhausted le }
    | u0 :: rest =>
      let scanned := scanCandidates (u0 :: rest) weights
      let ws := scanned.2
      let pick : Nat × Bool × List Nat :=
        match scanned.1 with
        | some i => (i, false, oracle)
        | none => (min (oracle.headD 0) rest.length, true, oracle.tail)
      let i := pick.1
      let u := (u0 :: rest).getD i u0
      let ex := do_upstream_exchange u penalty
      let thisDraws := if pick.2.1 then [(u0 :: rest, ws)] else []
      match ex.result with
      | .ok p =>
        { draws := thisDraws, queried := [(u.usId, penalty)], outcome := .returned (.ok p) }
      | .error e =>
        if e = .timedOut then
          { draws := thisDraws, queried := [(u.usId, penalty)],
            outcome := .returned (.error e) }
        else
          let subRun :=
            weightedLoopAux penalty fuel pick.2.2 (swapRemove (u0 :: rest) i)
              (swapRemove ws i) (some e)
          { draws := thisDraws ++ subRun.draws,
            queried := (u.usId, penalty) :: subRun.queried,
            outcome := subRun.outcome }

/-- The weighted random selection loop entered with the whole candidate pool: the fuel is
the pool size, one unit per possible disqualification, so it never runs out before the
pool empties. -/
def weightedLoop (penalty : Nat) (oracle : List Nat) (pool : List Upstream)
    (weights : List ℚ) (lastErr : Option DnsError) : WeightedRun :=
  weightedLoopAux penalty pool.length oracle pool weights lastErr

/-- The `DnsProxySettings` flags that the embedded pipeline consults. -/
structure Settings where
  optimisticCache : Bool
  blockIpv6 : Bool
  enableDnssecOk : Bool
  enableServfailOnUpstreamsFailure : Bool
  enableRetransmissionHandling : Bool
  enableParallelUpstreamQueries : Bool
  enableFallbackOnUpstreamsFailure : Bool
  deriving DecidableEq, Repr

/-- A parallel exchange route: the pool queried, the penalty RTT handed to every
per-upstream exchange, and the `wait_all` mode. -/
structure ParallelRoute where
  pool : List Upstream
  penalty : Nat
  waitAll : Bool
  deriving DecidableEq, Repr

/-- Routing outcome of `DnsForwarder::do_upstreams_exchange`: either the parallel path,
or the weighted random loop optionally followed by a last-resort parallel query of the
fallbacks. -/
inductive RoutePlan where
  | parallelRoute (pr : ParallelRoute)
  | weightedRoute (penalty : Nat) (run : WeightedRun) (fallbackAfter : Option ParallelRoute)
  deriving DecidableEq, Repr

/-- The continuation after the weighted loop in `DnsForwarder::do_upstreams_exchange`
(lines 2027-2036): on an early return the loop result stands; on pool exhaustion, when
fallback-on-failure is enabled and fallbacks exist, a last-resort parallel `wait_all`
query of the fallbacks is planned. -/
def weightedFollowUp (s : Settings) (fallbacks : List Upstream) (pen : Nat)
    (run : WeightedRun) : RoutePlan :=
  match run.outcome with
  | .returned _ => .weightedRoute pen run none
  | .exhausted _ =>
    if s.enableFallbackOnUpstreamsFailure && !fallbacks.isEmpty then
      .weightedRoute pen run
        (some { pool := (collect_upstreams fallbacks).1,
                penalty := 2 * (collect_upstreams fallbacks).2, waitAll := true })
    else .weightedRoute pen run none

/-- Embeds `DnsForwarder::do_upstreams_exchange` (outbound_socks_proxy.cpp lines
1985-2037) as a routing function. `forceFallback` is the retransmission flag;
`fallbackFilterMatch` is the outcome of `apply_fallback_filter` on the normalized name
(the rule engine behind it is a collaborator); `oracle` feeds the random draws of the
weighted loop. The source computes `fallback` once and branches on
`fallback || enable_parallel_upstream_queries` with `wait_all = fallback`; here that
single branch is split into its two cases. -/
def do_upstreams_exchange (s : Settings) (upstreams fallbacks : List Upstream)
    (forceFallback fallbackFilterMatch : Bool) (oracle : List Nat) : RoutePlan :=
  if (!fallbacks.isEmpty) && (forceFallback || fallbackFilterMatch) then
    .parallelRoute { pool := (collect_upstreams fallbacks).1,
                     penalty := 2 * (collect_upstreams fallbacks).2, waitAll := true }
  else if s.enableParallelUpstreamQueries then
    .parallelRoute { pool := (collect_upstreams upstreams).1,
                     penalty := 2 * (collect_upstreams upstreams).2, waitAll := false }
  else
    weightedFollowUp s fallbacks (2 * (collect_upstreams upstreams).2)
      (weightedLoop (2 * (collect_upstreams upstreams).2) oracle (collect_upstreams upstreams).1
        (List.replicate (collect_upstreams upstreams).1.length 1) none)

/-- The outcome of `ResponseCache::get`: a cached response with its expiry flag and the
id of the upstream that produced it (the cache itself is a collaborator). -/
structure CacheHit where
  response : Pkt
  expired : Bool
  upstreamId : Option Nat
  deriving DecidableEq, Repr

/-- The outcome of `DnsForwarder::apply_filter` on a question, abstracted over the rule
engine: an optional blocking response, plus whether producing it contacted an upstream
(a `$dnsrewrite` CNAME sub-exchange can). -/
structure FilterOutcome where
  blocking : Option Pkt
  usedUpstream : Bool
  deriving DecidableEq, Repr

/-- Observable outcome of handling one message: the reply (`none` meaning "do not
reply"), the error the processed event was finalized with, and whether any upstream was
contacted for this request. -/
structure PipelineResult where
  reply : Option Pkt
  eventError : Option DnsError
  upstreamQueried : Bool
  deriving DecidableEq, Repr

/-- Collaborator oracles of the forwarder pipeline: the ldns codec, the response cache,
the filter engine, and the pipeline tail from the general question filter onward (whose
behaviour no claim depends on). -/
structure PipelineEnv where
  decode : List Byte → Option Pkt
  cacheGet : Pkt → Option CacheHit
  questionFilter : Question → FilterOutcome
  rest : Pkt → Bool → PipelineResult

/-- The fixed Mozilla canary host (`MOZILLA_DOH_HOST`). -/
def mozillaDohHost : String := "use-application-dns.net."

/-- The SOA retry TTL used by the IPv6-block response (`SOA_RETRY_IPV6_BLOCK`). -/
def soaRetryIpv6Block : Nat := 60

/-- The minimum DNS message length accepted by `handle_message` (`LDNS_HEADER_SIZE`). -/
def ldnsHeaderSize : Nat := 12

/-- Embeds `DnsForwarder::handle_message_internal` (outbound_socks_proxy.cpp lines
1519-1620) through the IPv6-block step, in source order: decode (FORMERR carrying the
caller-supplied id on failure), missing-question check (SERVFAIL from the request),
cache probe (serve fresh hits, and expired hits under the optimistic cache), the Mozilla
canary NXDOMAIN rewrite, and the IPv6 block (filter the question; a blocking response
with a non-NOERROR rcode is returned, otherwise the SOA response with the retry TTL).
The pipeline tail from the general question filter onward is the oracle `env.rest`. -/
def handle_message_internal (env : PipelineEnv) (s : Settings) (message : List Byte)
    (info : Option DnsMessageInfo) (fallbackOnly : Bool) (pktId : Nat) : PipelineResult :=
  match env.decode message with
  | none =>
    { reply := some (create_formerr_response pktId),
      eventError := some .decodeError, upstreamQueried := false }
  | some request =>
    match request.questions.head? with
    | none =>
      { reply := some (create_servfail_response request),
        eventError := some .decodeError, upstreamQueried := false }
    | some q =>
      let serveCached : Option Pkt :=
        match env.cacheGet request with
        | some hit => if !hit.expired || s.optimisticCache then some hit.response else none
        | none => none
      match serveCached with
      | some cached =>
        { reply := some (truncate_response cached request info),
          eventError := none, upstreamQueried := false }
      | none =>
        if (q.qtype = .a ∨ q.qtype = .aaaa) ∧ q.name = mozillaDohHost then
          { reply := some (create_nxdomain_response request),
            eventError := none, upstreamQueried := false }
        else if s.blockIpv6 = true ∧ q.qtype = .aaaa then
          let fo := env.questionFilter q
          match fo.blocking with
          | none =>
            { reply := some (create_soa_response request soaRetryIpv6Block),
              eventError := none, upstreamQueried := fo.usedUpstream }
          | some blockResp =>
            if blockResp.rcode = .noerror then
              { reply := some (create_soa_response request soaRetryIpv6Block),
                eventError := none, upstreamQueried := fo.usedUpstream }
            else
              { reply := some blockResp, eventError := none,
                upstreamQueried := fo.usedUpstream }
        else
          env.rest request fallbackOnly

/-- Embeds `DnsForwarder::handle_message` (outbound_socks_proxy.cpp lines 2085-2120):
messages shorter than the 12-byte DNS header are dropped without a reply; otherwise the
16-bit id is read big-endian from the first two bytes, a UDP retransmission is detected
when the feature is enabled (`retransCount` is the count returned by
`RetransmissionDetector::register_packet` for this id and peer, the detector being a
collaborator), and the internal handler runs with the retransmission flag. -/
def handle_message (env : PipelineEnv) (s : Settings) (message : List Byte)
    (info : Option DnsMessageInfo) (retransCount : Nat) : PipelineResult :=
  if message.length < ldnsHeaderSize then
    { reply := none, eventError := none, upstreamQueried := false }
  else
    let pktId := read_uint16_be message
    let retransmissionHandling : Bool :=
      s.enableRetransmissionHandling &&
        (match info with
         | some i => decide (i.proto = .udp)
         | none => false)
    let retransmitted := retransmissionHandling && decide (retransCount > 1)
    handle_message_internal env s message info retransmitted pktId

/-- States of a SOCKS outbound connection (`connection_state`). -/
inductive ConnState where
  | idle
  | connectingSocket
  | connectingSocks
  | s5Authenticating
  | s5EstablishingTunnel
  | connected
  | closing
  deriving DecidableEq, Repr

/-- One entry of the `SocksOProxy` connections table, reduced to the attributes the
invariants mention. -/
structure SocksConnection where
  connId : Nat
  loop : Nat
  proto : TransportProtocol
  state : ConnState
  deriving DecidableEq, Repr

/-- The `SocksOProxy` shared state: the connections table, the per-event-loop UDP
associations (loop id mapped to the id of the association control connection), and the
connection id generator. -/
structure SocksState where
  connections : List SocksConnection
  udpAssociations : List (Nat × Nat)
  nextId : Nat
  deriving DecidableEq, Repr

/-- Lookup of a connection by id in the connections table. -/
def findConn (st : SocksState) (id : Nat) : Option SocksConnection :=
  st.connections.find? (fun c => c.connId == id)

/-- Lookup of the UDP association control connection id for an event loop. -/
def lookupAssoc (st : SocksState) (loop : Nat) : Option Nat :=
  (st.udpAssociations.find? (fun e => e.1 == loop)).map (fun e => e.2)

/-- Outcome tag of a UDP `connect_to_proxy` call. -/
inductive UdpConnectOutcome where
  | parked
  | associationStarted
  | relayConnect
  deriving DecidableEq, Repr

/-- Embeds the `need_to_start_assoc` branch of `SocksOProxy::connect_to_proxy`
(outbound_socks_proxy.cpp lines 463-491): allocate an association for the loop (replacing
any stale entry), create its control connection (a TCP connection to the proxy, left in
`ConnectingSocket` once the socket connect starts), and leave the triggering UDP flow
entry in `Idle`. -/
def startUdpAssociation (st : SocksState) (loop : Nat) (flow : SocksConnection) : SocksState :=
  let assocConnId := st.nextId + 1
  let assocConn : SocksConnection :=
    { connId := assocConnId, loop := loop, proto := .tcp, state := .connectingSocket }
  let assocs :=
    if (st.udpAssociations.find? (fun e => e.1 == loop)).isSome then
      st.udpAssociations.map (fun e => if e.1 == loop then (loop, assocConnId) else e)
    else (loop, assocConnId) :: st.udpAssociations
  { connections := assocConn :: flow :: st.connections,
    udpAssociations := assocs,
    nextId := st.nextId + 2 }

/-- Embeds `SocksOProxy::connect_to_proxy` for a new UDP flow (outbound_socks_proxy.cpp
lines 304-327 and 439-511): create the table entry for the flow (its id drawn from the
proxy id generator), then: if the loop has an association whose control connection is not
yet `Connected`, park the flow in `ConnectingSocket`; if the control connection is
`Connected`, connect the flow to the bound relay address (also entering
`ConnectingSocket`); otherwise start the association. -/
def connect_udp_flow (st : SocksState) (loop : Nat) : SocksState × UdpConnectOutcome :=
  let flowId := st.nextId
  let base : SocksConnection := { connId := flowId, loop := loop, proto := .udp, state := .idle }
  match lookupAssoc st loop with
  | some assocConnId =>
    match findConn st assocConnId with
    | some assocConn =>
      if assocConn.state ≠ .connected then
        ({ st with
            connections := { base with state := .connectingSocket } :: st.connections,
            nextId := st.nextId + 1 },
          .parked)
      else
        ({ st with
            connections := { base with state := .connectingSocket } :: st.connections,
            nextId := st.nextId + 1 },
          .relayConnect)
    | none => (startUdpAssociation st loop base, .associationStarted)
  | none => (startUdpAssociation st loop base, .associationStarted)

/-- Embeds `SocksOProxy::close_connection_impl` followed by the deferred
`SocksOProxy::close_connection` for a flow (outbound_socks_proxy.cpp lines 273-302 and
513-548): extract the entry; for a UDP flow, when no other UDP flow of the same loop
remains and the table is not empty, tear down the association of the loop together with
its control connection (`terminate_udp_association_silently`, lines 646-658). -/
def close_connection (st : SocksState) (connId : Nat) : SocksState :=
  match findConn st connId with
  | none => st
  | some conn =>
    let st1 : SocksState :=
      { st with connections := st.connections.filter (fun c => c.connId != connId) }
    if conn.proto ≠ .udp then st1
    else
      let othersLeft :=
        st1.connections.any (fun c => c.loop == conn.loop && c.proto == TransportProtocol.udp)
      if othersLeft || st1.connections.isEmpty then st1
      else
        match lookupAssoc st1 conn.loop with
        | none => st1
        | some assocConnId =>
          match findConn st1 assocConnId with
          | none => st1
          | some _ =>
            { st1 with
              connections := st1.connections.filter (fun c => c.connId != assocConnId),
              udpAssociations := st1.udpAssociations.filter (fun e => e.1 != conn.loop) }

/-- Well-formedness of the `SocksOProxy` shared state: connection ids are unique, at most
one UDP association exists per event loop, every association control connection id is in
the connections table, and all ids already handed out are below the generator value. -/
def SocksWF (st : SocksState) : Prop :=
  (st.connections.map (fun c => c.connId)).Nodup ∧
  (st.udpAssociations.map (fun e => e.1)).Nodup ∧
  (∀ c ∈ st.connections, c.connId < st.nextId) ∧
  (∀ e ∈ st.udpAssociations, e.2 < st.nextId)

/-! Concrete instances used by counterexamples and witnesses. -/

/-- A UDP message info. -/
def infoUdp : DnsMessageInfo := { proto := .udp, peername := 0 }

/-- A TCP message info. -/
def infoTcp : DnsMessageInfo := { proto := .tcp, peername := 0 }

/-- A well-formed upstream response. -/
def pktOk : Pkt :=
  { pktId := 7, questions := [], answers := [], authority := [],
    rcode := .noerror, tc := false, edns := none, wireLen := 30 }

/-- A request advertising a 4096-byte EDNS UDP size. -/
def reqEdns4096 : Pkt :=
  { pktId := 1, questions := [], answers := [], authority := [],
    rcode := .noerror, tc := false, edns := some 4096, wireLen := 40 }

/-- A request without EDNS. -/
def reqNoEdns : Pkt :=
  { pktId := 1, questions := [], answers := [], authority := [],
    rcode := .noerror, tc := false, edns := none, wireLen := 40 }

/-- A 1000-byte response. -/
def resp1000 : Pkt :=
  { pktId := 1, questions := [], answers := [], authority := [],
    rcode := .noerror, tc := false, edns := none, wireLen := 1000 }

/-- An upstream whose first attempt fails with a closed connection and whose retry
succeeds. -/
def uRetry : Upstream :=
  { usId := 1, rtt := some 10,
    attempts := [{ result := .error .connectionClosed, elapsedMs := 5 },
                 { result := .ok pktOk, elapsedMs := 7 }] }

/-- An upstream that answers immediately. -/
def uPlain : Upstream :=
  { usId := 5, rtt := some 10, attempts := [{ result := .ok pktOk, elapsedMs := 4 }] }

/-- A fallback upstream that answers immediately. -/
def uFb : Upstream :=
  { usId := 6, rtt := some 30, attempts := [{ result := .ok pktOk, elapsedMs := 9 }] }

/-- Settings with every optional feature off. -/
def settings0 : Settings :=
  { optimisticCache := false, blockIpv6 := false, enableDnssecOk := false,
    enableServfailOnUpstreamsFailure := false, enableRetransmissionHandling := false,
    enableParallelUpstreamQueries := false, enableFallbackOnUpstreamsFailure := false }

/-- Settings with the IPv6 block enabled. -/
def settingsBlock6 : Settings := { settings0 with blockIpv6 := true }

/-- The three-byte input of the spec FORMERR test. -/
def msgABCD : List Byte := [0xAB, 0xCD, 0x00]

/-- A twelve-byte input starting with the bytes 0xAB 0xCD. -/
def msg12 : List Byte := [0xAB, 0xCD, 0, 0, 0, 0, 0, 0, 0, 0, 0, 0]

/-- A pipeline result meaning "no reply, nothing happened". -/
def noReply : PipelineResult := { reply := none, eventError := none, upstreamQueried := false }

/-- A pipeline environment whose codec rejects every input. -/
def envDecodeFail : PipelineEnv :=
  { decode := fun _ => none,
    cacheGet := fun _ => none,
    questionFilter := fun _ => { blocking := none, usedUpstream := false },
    rest := fun _ _ => noReply }

/-- A request that decodes fine but carries no question record. -/
def reqNoQ : Pkt :=
  { pktId := 43981, questions := [], answers := [], authority := [],
    rcode := .noerror, tc := false, edns := none, wireLen := 12 }

/-- A pipeline environment whose codec yields the question-less request. -/
def envNoQ : PipelineEnv :=
  { decode := fun _ => some reqNoQ,
    cacheGet := fun _ => none,
    questionFilter := fun _ => { blocking := none, usedUpstream := false },
    rest := fun _ _ => noReply }

/-- An AAAA question for an ordinary domain. -/
def qAAAA : Question := { name := "example.com.", qtype := .aaaa }

/-- An AAAA request for an ordinary domain. -/
def reqAAAA : Pkt :=
  { pktId := 3, questions := [qAAAA], answers := [], authority := [],
    rcode := .noerror, tc := false, edns := none, wireLen := 41 }

/-- A blocking response with rcode NOERROR, as the ADDRESS blocking mode produces. -/
def blockNoerror : Pkt :=
  { pktId := 3, questions := [qAAAA], answers := [{ rtype := .aaaa, ttl := 10 }],
    authority := [], rcode := .noerror, tc := false, edns := none, wireLen := 69 }

/-- A blocking response with rcode REFUSED. -/
def blockRefused : Pkt :=
  { pktId := 3, questions := [qAAAA], answers := [], authority := [],
    rcode := .refused, tc := false, edns := none, wireLen := 41 }

/-- A pipeline environment that decodes to the AAAA request and whose filter produces the
NOERROR blocking response. -/
def envIpv6BlockNoerror : PipelineEnv :=
  { decode := fun _ => some reqAAAA,
    cacheGet := fun _ => none,
    questionFilter := fun _ => { blocking := some blockNoerror, usedUpstream := false },
    rest := fun _ _ => noReply }

/-- A pipeline environment that decodes to the AAAA request and whose filter produces the
REFUSED blocking response. -/
def envIpv6BlockRefused : PipelineEnv :=
  { decode := fun _ => some reqAAAA,
    cacheGet := fun _ => none,
    questionFilter := fun _ => { blocking := some blockRefused, usedUpstream := false },
    rest := fun _ _ => noReply }

/-- A NOERROR response with one answer record. -/
def pkt1ans : Pkt :=
  { pktId := 1, questions := [], answers := [{ rtype := .a, ttl := 1 }], authority := [],
    rcode := .noerror, tc := false, edns := none, wireLen := 45 }

/-- A NOERROR response with three answer records. -/
def pkt3ans : Pkt :=
  { pktId := 1, questions := [],
    answers := [{ rtype := .a, ttl := 1 }, { rtype := .a, ttl := 2 }, { rtype := .a, ttl := 3 }],
    authority := [], rcode := .noerror, tc := false, edns := none, wireLen := 75 }

/-- A one-answer result from upstream 1. -/
def resA : UpstreamExchangeResult := { result := .ok pkt1ans, upstream := some 1 }

/-- A one-answer result from upstream 2: tied with `resA` under the comparator. -/
def resB : UpstreamExchangeResult := { result := .ok pkt1ans, upstream := some 2 }

/-- An error result. -/
def resErr : UpstreamExchangeResult := { result := .error .timedOut, upstream := some 3 }

/-- A three-answer NOERROR result. -/
def res3 : UpstreamExchangeResult := { result := .ok pkt3ans, upstream := some 4 }

/-- The result set of the spec parallel tie-break scenario: an error, a one-answer
NOERROR and a three-answer NOERROR. -/
def results3 : List UpstreamExchangeResult := [resErr, resA, res3]

/-- An upstream with a 2 ms RTT estimate that fails with a non-retriable error. -/
def uFail2 : Upstream :=
  { usId := 11, rtt := some 2, attempts := [{ result := .error .internalError, elapsedMs := 1 }] }

/-- An upstream with a 4 ms RTT estimate that answers. -/
def uOk4 : Upstream :=
  { usId := 12, rtt := some 4, attempts := [{ result := .ok pktOk, elapsedMs := 2 }] }

/-- An upstream with an 8 ms RTT estimate that answers. -/
def uOk8 : Upstream :=
  { usId := 13, rtt := some 8, attempts := [{ result := .ok pktOk, elapsedMs := 3 }] }

/-- A concrete weighted-selection run: the 2 ms upstream is drawn first and fails, the
pool is reduced by swap-with-back, and a second draw happens over the accumulated
weights. -/
def c7run : WeightedRun := weightedLoop 100 [0, 0] [uFail2, uOk4, uOk8] [1, 1, 1] none

/-- An upstream that always times out. -/
def uTimeout : Upstream :=
  { usId := 21, rtt := some 9,
    attempts := [{ result := .error .timedOut, elapsedMs := 500 },
                 { result := .error .timedOut, elapsedMs := 500 }] }

/-- An upstream that always fails with a non-retriable, non-timeout error. -/
def uAlwaysFail : Upstream :=
  { usId := 22, rtt := some 3,
    attempts := [{ result := .error .internalError, elapsedMs := 1 },
                 { result := .error .internalError, elapsedMs := 1 }] }

/-- The empty SOCKS proxy state. -/
def st0 : SocksState := { connections := [], udpAssociations := [], nextId := 0 }

/-- The state after the first UDP flow on loop 7: the flow (id 0) is in `Idle` and the
association control connection (id 1) is in `ConnectingSocket`. -/
def stAssocStarted : SocksState := (connect_udp_flow st0 7).1

/-! Theorems. -/

/-- Disqualification by swap-with-back-and-pop removes exactly one element. -/
theorem swapRemove_length (l : List α) (i : Nat) : (swapRemove l i).length = l.length - 1 := by
  cases l with
  | nil => rfl
  | cons a as => simp [swapRemove]

/-- Every exchange performed by the weighted selection loop carries the penalty the loop
was entered with. -/
theorem weightedLoopAux_queried_penalty (penalty : Nat) :
    ∀ (fuel : Nat) (oracle : List Nat) (pool : List Upstream) (ws : List ℚ)
      (le : Option DnsError),
      ∀ q ∈ (weightedLoopAux penalty fuel oracle pool ws le).queried, q.2 = penalty := by
  intro fuel
  induction fuel with
  | zero =>
    intro oracle pool ws le q hq
    simp [weightedLoopAux] at hq
  | succ n ih =>
    intro oracle pool ws le q hq
    match pool with
    | [] => simp [weightedLoopAux] at hq
    | u0 :: rest =>
      rw [weightedLoopAux] at hq
      simp only at hq
      split at hq
      · simp only [List.mem_singleton] at hq
        simp [hq]
      · split at hq
        · simp only [List.mem_singleton] at hq
          simp [hq]
        · simp only [List.mem_cons] at hq
          rcases hq with hq | hq
          · simp [hq]
          · exact ih _ _ _ _ q hq

/-- Refutes C9 as stated: the claim caps UDP responses at min(advertised EDNS size, 512),
but `truncate_response` caps at the advertised EDNS size itself whenever the request
carries EDNS. With an advertised size of 4096 and a 1000-byte response, the response
exceeds min(4096, 512) = 512, yet it comes back untouched: TC stays clear and the length
stays 1000. -/
theorem c9_truncation_counterexample :
    truncate_response resp1000 reqEdns4096 (some infoUdp) = resp1000 ∧
    (truncate_response resp1000 reqEdns4096 (some infoUdp)).tc = false ∧
    Nat.min 4096 512 < (truncate_response resp1000 reqEdns4096 (some infoUdp)).wireLen := by
  refine ⟨rfl, rfl, by decide⟩

/-- C9 (amended): on UDP the truncation cap is the EDNS UDP size advertised by the
request when the request carries EDNS — even when that size exceeds 512 — and 512
otherwise; a response longer than that cap is returned with TC=1 and length at most the
cap; a response delivered over TCP is never truncated. -/
theorem c9_truncation_amended (response request : Pkt) (info : DnsMessageInfo) (cap : Nat)
    (hcap : cap = match request.edns with | some sz => sz | none => 512) :
    (info.proto = .udp → cap < response.wireLen →
      (truncate_response response request (some info)).tc = true ∧
      (truncate_response response request (some info)).wireLen ≤ cap) ∧
    (info.proto = .tcp → truncate_response response request (some info) = response) := by
  subst hcap
  constructor
  · intro hudp hlt
    cases he : request.edns with
    | none =>
      rw [he] at hlt
      simp [truncate_response, ldns_pkt_truncate, hudp, he, hlt]
    | some sz =>
      rw [he] at hlt
      simp [truncate_response, ldns_pkt_truncate, hudp, he, hlt]
  · intro htcp
    simp [truncate_response, htcp]

/-- Witness for C9 (amended): a 1000-byte UDP response to a request without EDNS is
truncated to at most 512 bytes with TC set. -/
theorem c9_truncation_witness :
    (truncate_response resp1000 reqNoEdns (some infoUdp)).tc = true ∧
    (truncate_response resp1000 reqNoEdns (some infoUdp)).wireLen ≤ 512 :=
  (c9_truncation_amended resp1000 reqNoEdns infoUdp 512 (by rfl)).1 (by rfl) (by decide)

/-- C5: in a single-upstream exchange, a first attempt failing with
`AE_CONNECTION_CLOSED` or the generic I/O error (`AE_CURL_ERROR`) triggers exactly one
retry on the same upstream, so exactly two attempts happen and never more; a first
attempt failing with a timeout is not retried. -/
theorem c5_single_upstream_retry (u : Upstream) (errorRtt : Nat) :
    ((do_upstream_exchange u errorRtt).attemptsMade ≤ 2) ∧
    (∀ e, (u.attempt 0).result = .error e → retriableError e = true →
      (do_upstream_exchange u errorRtt).attemptsMade = 2) ∧
    ((u.attempt 0).result = .error .timedOut →
      (do_upstream_exchange u errorRtt).attemptsMade = 1) := by
  refine ⟨?_, ?_, ?_⟩
  · unfold do_upstream_exchange
    cases h0 : (u.attempt 0).result with
    | ok p => simp
    | error e =>
      by_cases hr : retriableError e = true
      · simp only [hr, if_true]
        cases h1 : (u.attempt 1).result <;> simp
      · simp only [Bool.not_eq_true] at hr
        simp [hr]
  · intro e h0 hr
    unfold do_upstream_exchange
    rw [h0]
    simp only [hr, if_true]
    cases h1 : (u.attempt 1).result <;> simp
  · intro h0
    unfold do_upstream_exchange
    rw [h0]
    simp [retriableError]

/-- Witness for C5: a first attempt failing with `AE_CONNECTION_CLOSED` leads to exactly
two attempts. -/
theorem c5_single_upstream_retry_witness :
    (do_upstream_exchange uRetry 20).attemptsMade = 2 :=
  (c5_single_upstream_retry uRetry 20).2.1 .connectionClosed rfl rfl

/-- Refutes C1 as stated: the claim requires every undecodable input — including inputs
shorter than the 12-byte DNS header — to be answered with a FORMERR carrying the id from
the first two bytes, and names the input [0xAB, 0xCD, 0x00] (expected FORMERR id 0xABCD).
`DnsForwarder::handle_message` instead drops inputs shorter than `LDNS_HEADER_SIZE`
without any reply ("Not responding to malformed message"), so this very input produces an
empty reply, not a FORMERR. -/
theorem c1_formerr_counterexample :
    (handle_message envDecodeFail settings0 msgABCD (some infoUdp) 1).reply = none := by
  rfl

/-- C1 (amended): inputs shorter than the 12-byte DNS header are dropped with an empty
reply; for every input of at least header length that fails to decode, `handle_message`
replies — never empty — with a FORMERR whose 16-bit id is the big-endian value of the
first two input bytes, and finalizes the event with a decode error. -/
theorem c1_formerr_carries_id_amended (env : PipelineEnv) (s : Settings)
    (message : List Byte) (info : Option DnsMessageInfo) (cnt : Nat) :
    (message.length < ldnsHeaderSize →
      (handle_message env s message info cnt).reply = none) ∧
    (ldnsHeaderSize ≤ message.length → env.decode message = none →
      (handle_message env s message info cnt).reply =
        some (create_formerr_response (read_uint16_be message)) ∧
      (handle_message env s message info cnt).reply ≠ none ∧
      (handle_message env s message info cnt).eventError = some .decodeError) := by
  constructor
  · intro hshort
    unfold handle_message
    rw [if_pos hshort]
  · intro hlen hdec
    unfold handle_message
    rw [if_neg (by omega)]
    unfold handle_message_internal
    rw [hdec]
    exact ⟨rfl, by simp, rfl⟩

/-- Witness for C1 (amended): a 12-byte input starting with 0xAB 0xCD that fails to
decode yields a FORMERR reply with id 0xABCD = 43981. -/
theorem c1_formerr_carries_id_witness :
    (handle_message envDecodeFail settings0 msg12 (some infoUdp) 1).reply =
      some (create_formerr_response 43981) := by
  have h := (c1_formerr_carries_id_amended envDecodeFail settings0 msg12 (some infoUdp) 1).2
      (by decide) rfl
  exact h.1.trans (by decide)

/-- C10: an input that decodes successfully but contains no question record is answered
with a SERVFAIL built from the request, the processed event is finalized with a decode
error, and the request is never forwarded to any upstream. -/
theorem c10_no_question_servfail (env : PipelineEnv) (s : Settings) (message : List Byte)
    (info : Option DnsMessageInfo) (cnt : Nat) (request : Pkt)
    (hlen : ldnsHeaderSize ≤ message.length)
    (hdec : env.decode message = some request)
    (hq : request.questions = []) :
    handle_message env s message info cnt =
      { reply := some (create_servfail_response request),
        eventError := some .decodeError, upstreamQueried := false } := by
  unfold handle_message
  rw [if_neg (by omega)]
  unfold handle_message_internal
  simp only [hdec, hq, List.head?_nil]

/-- Witness for C10: a question-less request is answered with SERVFAIL, the event records
a decode error, and no upstream is contacted. -/
theorem c10_no_question_servfail_witness :
    handle_message envNoQ settings0 msg12 (some infoUdp) 1 =
      { reply := some (create_servfail_response reqNoQ),
        eventError := some DnsError.decodeError, upstreamQueried := false } :=
  c10_no_question_servfail envNoQ settings0 msg12 (some infoUdp) 1 reqNoQ (by decide) rfl rfl

/-- Refutes C8 as stated: the claim requires any blocking response produced by the
question filter to be returned. When the blocking response has rcode NOERROR (as the
default hosts-rule ADDRESS blocking mode produces), `handle_message_internal` discards it
and answers with the SOA response instead (`!raw_blocking_response || rc ==
LDNS_RCODE_NOERROR`). -/
theorem c8_ipv6_block_counterexample :
    (handle_message_internal envIpv6BlockNoerror settingsBlock6 msg12 (some infoUdp) false 3).reply =
      some (create_soa_response reqAAAA 60) ∧
    (envIpv6BlockNoerror.questionFilter qAAAA).blocking = some blockNoerror ∧
    some blockNoerror ≠ some (create_soa_response reqAAAA 60) := by
  refine ⟨rfl, rfl, by decide⟩

/-- C8 (amended): with `block_ipv6` enabled, an AAAA question that was not served from
the cache and is not the canary is answered as follows: a blocking response from the
question filter is returned only when its rcode is not NOERROR; otherwise — no blocking
response, or a blocking response with rcode NOERROR — the reply is the SOA response built
from the request: rcode NOERROR, zero answers, and exactly one SOA authority record with
TTL 60. -/
theorem c8_ipv6_block_amended (env : PipelineEnv) (s : Settings) (message : List Byte)
    (info : Option DnsMessageInfo) (fb : Bool) (pktId : Nat) (request : Pkt) (q : Question)
    (hdec : env.decode message = some request)
    (hq : request.questions.head? = some q)
    (hcache : env.cacheGet request = none)
    (hname : ¬ q.name = mozillaDohHost)
    (hblock : s.blockIpv6 = true)
    (haaaa : q.qtype = .aaaa) :
    (match (env.questionFilter q).blocking with
     | some b =>
        if b.rcode = .noerror then
          (handle_message_internal env s message info fb pktId).reply =
            some (create_soa_response request soaRetryIpv6Block)
        else
          (handle_message_internal env s message info fb pktId).reply = some b
     | none =>
        (handle_message_internal env s message info fb pktId).reply =
          some (create_soa_response request soaRetryIpv6Block)) ∧
    (create_soa_response request soaRetryIpv6Block).rcode = .noerror ∧
    (create_soa_response request soaRetryIpv6Block).answers = [] ∧
    (create_soa_response request soaRetryIpv6Block).authority = [{ rtype := .soa, ttl := 60 }] := by
  refine ⟨?_, rfl, rfl, rfl⟩
  unfold handle_message_internal
  simp only [hdec, hq, hcache]
  rw [if_neg (fun h => hname h.2)]
  rw [if_pos ⟨hblock, haaaa⟩]
  cases hf : (env.questionFilter q).blocking with
  | none => simp [hf]
  | some b =>
    by_cases hrc : b.rcode = .noerror
    · simp [hf, hrc]
    · simp [hf, hrc]

/-- Witness for C8 (amended): with the filter producing a REFUSED blocking response, the
blocking response itself is returned. -/
theorem c8_ipv6_block_witness :
    (handle_message_internal envIpv6BlockRefused settingsBlock6 msg12 (some infoUdp) false 3).reply =
      some blockRefused := by
  have h := (c8_ipv6_block_amended envIpv6BlockRefused settingsBlock6 msg12 (some infoUdp)
      false 3 reqAAAA qAAAA rfl rfl rfl (by decide) rfl rfl).1
  simpa using h

/-- Refutes C4 as stated: a request flagged fallback-only is NOT routed to the fallback
pool when the fallback pool is empty — `do_upstreams_exchange` then sends it to the
primary pool through the weighted random selection loop, which the claim says never
happens for such requests. Here the retransmission flag is set, the fallback list is
empty, and the plan queries primary upstream 5 via the weighted loop. -/
theorem c4_fallback_routing_counterexample :
    do_upstreams_exchange settings0 [uPlain] [] true false [] =
      .weightedRoute 20
        { draws := [([uPlain], [1 / 10])],
          queried := [(5, 20)],
          outcome := .returned (.ok pktOk) }
        none := by
  norm_num [do_upstreams_exchange, weightedFollowUp, weightedLoop, weightedLoopAux,
    scanCandidates, collect_upstreams, do_upstream_exchange, Upstream.attempt,
    retriableError, update_rtt_estimate, swapRemove, settings0, uPlain, pktOk]

/-- C4 (amended): provided the fallback pool is non-empty, a request flagged
fallback-only (detected retransmission) or matching the fallback-domain filter is routed
to the fallback pool, queried in parallel with `wait_all`; moreover every last-resort
fallback route planned after primary exhaustion also queries the fallback pool with
`wait_all`. -/
theorem c4_fallback_routing_amended (s : Settings) (ups fbs : List Upstream)
    (ff fm : Bool) (oracle : List Nat) :
    (fbs ≠ [] → ff = true ∨ fm = true →
      do_upstreams_exchange s ups fbs ff fm oracle =
        .parallelRoute { pool := fbs, penalty := 2 * (collect_upstreams fbs).2,
                         waitAll := true }) ∧
    (∀ pen run pr,
      do_upstreams_exchange s ups fbs ff fm oracle = .weightedRoute pen run (some pr) →
      pr.waitAll = true ∧ pr.pool = fbs) := by
  constructor
  · intro hfbs hflag
    have hemp : fbs.isEmpty = false := by
      cases fbs with
      | nil => exact absurd rfl hfbs
      | cons a l => rfl
    have hor : (ff || fm) = true := by
      rcases hflag with h | h <;> simp [h]
    simp [do_upstreams_exchange, hemp, hor, collect_upstreams]
  · intro pen run pr h
    unfold do_upstreams_exchange at h
    split at h
    · exact RoutePlan.noConfusion h
    · split at h
      · exact RoutePlan.noConfusion h
      · unfold weightedFollowUp at h
        split at h
        · simp at h
        · split at h
          · rw [RoutePlan.weightedRoute.injEq] at h
            obtain ⟨-, -, hsome⟩ := h
            rw [Option.some.injEq] at hsome
            subst hsome
            exact ⟨rfl, rfl⟩
          · simp at h

/-- Witness for C4 (amended): with one fallback configured and the retransmission flag
set, the plan is the parallel `wait_all` query of the fallback pool. -/
theorem c4_fallback_routing_witness :
    do_upstreams_exchange settings0 [uPlain] [uFb] true false [] =
      .parallelRoute { pool := [uFb], penalty := 2 * (collect_upstreams [uFb]).2,
                       waitAll := true } :=
  (c4_fallback_routing_amended settings0 [uPlain] [uFb] true false []).1
    (by decide) (Or.inl rfl)

/-- C6: every attempted exchange updates the queried upstream RTT estimate — with the
measured elapsed time of the final attempt on success, and with the caller-provided
penalty on failure — and everywhere `do_upstreams_exchange` performs or plans an
exchange, the penalty handed to it is 2 times the maximum RTT estimate across the routed
candidate pool (unset estimates counting as 0): directly in a parallel route, in every
query of the weighted loop, and in the last-resort fallback route. -/
theorem c6_rtt_update_policy :
    (∀ (u : Upstream) (errorRtt : Nat) (p : Pkt),
      (do_upstream_exchange u errorRtt).result = .ok p →
      (do_upstream_exchange u errorRtt).upstream.rtt =
        some ((u.attempt ((do_upstream_exchange u errorRtt).attemptsMade - 1)).elapsedMs)) ∧
    (∀ (u : Upstream) (errorRtt : Nat) (e : DnsError),
      (do_upstream_exchange u errorRtt).result = .error e →
      (do_upstream_exchange u errorRtt).upstream.rtt = some errorRtt) ∧
    (∀ (s : Settings) (ups fbs : List Upstream) (ff fm : Bool) (oracle : List Nat)
      (pr : ParallelRoute),
      do_upstreams_exchange s ups fbs ff fm oracle = .parallelRoute pr →
      pr.penalty = 2 * (collect_upstreams pr.pool).2) ∧
    (∀ (s : Settings) (ups fbs : List Upstream) (ff fm : Bool) (oracle : List Nat)
      (pen : Nat) (run : WeightedRun) (fbAfter : Option ParallelRoute),
      do_upstreams_exchange s ups fbs ff fm oracle = .weightedRoute pen run fbAfter →
      pen = 2 * (collect_upstreams ups).2 ∧
      (∀ q ∈ run.queried, q.2 = pen) ∧
      (∀ pr, fbAfter = some pr → pr.penalty = 2 * (collect_upstreams pr.pool).2)) := by
  refine ⟨?_, ?_, ?_, ?_⟩
  · intro u errorRtt p h
    cases h0 : (u.attempt 0).result with
    | ok p2 => simp [do_upstream_exchange, h0, update_rtt_estimate]
    | error e =>
      by_cases hr : retriableError e = true
      · cases h1 : (u.attempt 1).result with
        | ok p2 => simp [do_upstream_exchange, h0, hr, h1, update_rtt_estimate]
        | error e1 => simp [do_upstream_exchange, h0, hr, h1] at h
      · simp only [Bool.not_eq_true] at hr
        simp [do_upstream_exchange, h0, hr] at h
  · intro u errorRtt e h
    cases h0 : (u.attempt 0).result with
    | ok p2 => simp [do_upstream_exchange, h0] at h
    | error e0 =>
      by_cases hr : retriableError e0 = true
      · cases h1 : (u.attempt 1).result with
        | ok p2 => simp [do_upstream_exchange, h0, hr, h1] at h
        | error e1 => simp [do_upstream_exchange, h0, hr, h1, update_rtt_estimate]
      · simp only [Bool.not_eq_true] at hr
        simp [do_upstream_exchange, h0, hr, update_rtt_estimate]
  · intro s ups fbs ff fm oracle pr h
    unfold do_upstreams_exchange at h
    split at h
    · cases h
      rfl
    · split at h
      · cases h
        rfl
      · unfold weightedFollowUp at h
        split at h
        · exact RoutePlan.noConfusion h
        · split at h
          · exact RoutePlan.noConfusion h
          · exact RoutePlan.noConfusion h
  · intro s ups fbs ff fm oracle pen run fbAfter h
    unfold do_upstreams_exchange at h
    split at h
    · exact RoutePlan.noConfusion h
    · split at h
      · exact RoutePlan.noConfusion h
      · unfold weightedFollowUp at h
        split at h
        · cases h
          refine ⟨rfl, ?_, ?_⟩
          · intro q hq
            exact weightedLoopAux_queried_penalty _ _ _ _ _ _ q hq
          · intro pr hpr
            exact Option.noConfusion hpr
        · split at h
          · cases h
            refine ⟨rfl, ?_, ?_⟩
            · intro q hq
              exact weightedLoopAux_queried_penalty _ _ _ _ _ _ q hq
            · intro pr hpr
              rw [Option.some.injEq] at hpr
              subst hpr
              rfl
          · cases h
            refine ⟨rfl, ?_, fun pr hpr => Option.noConfusion hpr⟩
            intro q hq
            exact weightedLoopAux_queried_penalty _ _ _ _ _ _ q hq

/-- Witness for C6: a failing exchange with penalty 37 leaves the upstream RTT estimate
at 37 milliseconds. -/
theorem c6_rtt_update_policy_witness :
    (do_upstream_exchange uAlwaysFail 37).upstream.rtt = some 37 :=
  c6_rtt_update_policy.2.1 uAlwaysFail 37 .internalError rfl

/-- The comparator of the parallel `wait_all` sort holds exactly when the left ranking
key is strictly larger: errors rank 0, non-NOERROR responses rank 1, NOERROR responses
rank 2 plus their answer count. -/
theorem waitAllLess_iff_key (l r : UpstreamExchangeResult) :
    waitAllLess l r = true ↔ resKey r < resKey l := by
  obtain ⟨lres, lu⟩ := l
  obtain ⟨rres, ru⟩ := r
  cases lres with
  | error e =>
    cases rres with
    | error e2 => simp [waitAllLess, resKey]
    | ok rp => simp [waitAllLess, resKey]
  | ok lp =>
    cases rres with
    | error e2 =>
      have hpos : (0 : Nat) < if lp.rcode = Rcode.noerror then 2 + lp.answers.length else 1 := by
        split <;> omega
      simp [waitAllLess, resKey, hpos]
    | ok rp =>
      simp only [waitAllLess, resKey]
      by_cases hrc : lp.rcode = rp.rcode
      · by_cases hno : lp.rcode = .noerror
        · have hrn : rp.rcode = Rcode.noerror := hrc ▸ hno
          rw [if_pos hrc, if_pos hno, if_pos hrn, if_pos hno]
          simp only [decide_eq_true_eq]
          omega
        · have hrn : ¬ rp.rcode = Rcode.noerror := fun h => hno (hrc.trans h)
          rw [if_pos hrc, if_neg hno, if_neg hrn, if_neg hno]
          simp
      · by_cases hno : lp.rcode = .noerror
        · have hrn : ¬ rp.rcode = Rcode.noerror := fun h => hrc (hno.trans h.symm)
          rw [if_neg hrc, if_neg hrn, if_pos hno]
          simp only [hno, decide_true_eq_true, decide_eq_true_eq]
          constructor
          · intro _
            omega
          · intro _
            trivial
        · rw [if_neg hrc, if_neg hno]
          have hl : decide (lp.rcode = Rcode.noerror) = false := by
            simp [hno]
          rw [hl]
          have hr2 : ¬ ((if rp.rcode = Rcode.noerror then 2 + rp.answers.length else 1) < 1) := by
            split <;> omega
          simp [hr2]

/-- In a range sorted by the `wait_all` comparator, every element after the head ranks at
most the head. -/
theorem stdSorted_head_key :
    ∀ (tail : List UpstreamExchangeResult) (w : UpstreamExchangeResult),
      StdSorted waitAllLess (w :: tail) → ∀ x ∈ tail, resKey x ≤ resKey w := by
  intro tail
  induction tail with
  | nil =>
    intro w _ x hx
    simp at hx
  | cons a rest ih =>
    intro w hsort x hx
    have hsplit := List.chain'_cons.mp hsort
    have hle : resKey a ≤ resKey w := by
      have h2 := waitAllLess_iff_key a w
      rw [hsplit.1] at h2
      simp at h2
      omega
    rcases List.mem_cons.mp hx with rfl | hx2
    · exact hle
    · exact le_trans (ih a hsplit.2 x hx2) hle

/-- Refutes C2 as stated: the comparator ties distinct results (two NOERROR responses
with equal answer counts, here from upstreams 1 and 2), and `std::sort` is unstable, so
the earliest-input-position tie-break of the claimed strict total order is not
guaranteed: a valid sort output puts the later result `resB` in front, while the claimed
unique winner is the earlier `resA`. -/
theorem c2_parallel_wait_all_counterexample :
    waitAllWinner [resA, resB] resB ∧ claimWinner [resA, resB] = some resA ∧ resB ≠ resA := by
  refine ⟨⟨[resB, resA], by decide, ?_, rfl⟩, by decide, by decide⟩
  unfold StdSorted
  exact List.chain'_cons.mpr ⟨by decide, List.chain'_singleton _⟩

/-- C2 (amended): a parallel `wait_all` winner is one of the collected results and is
maximal for rules 1-3 of the order (non-error over error, NOERROR over other rcodes,
higher answer count among NOERROR, as measured by `resKey`); whenever one result strictly
beats every other, it is the unique possible winner. Remaining ties are broken by the
unstable `std::sort`, not necessarily by input position. -/
theorem c2_parallel_wait_all_amended (results : List UpstreamExchangeResult)
    (w : UpstreamExchangeResult) (h : waitAllWinner results w) :
    (w ∈ results ∧ ∀ x ∈ results, resKey x ≤ resKey w) ∧
    (∀ v ∈ results, (∀ x ∈ results, x ≠ v → resKey x < resKey v) → w = v) := by
  obtain ⟨sorted, hperm, hsort, hhead⟩ := h
  cases sorted with
  | nil => exact absurd hhead (by simp)
  | cons s0 tail =>
    have hs0 : s0 = w := by
      simpa using hhead
    subst hs0
    have hmemw : s0 ∈ results := hperm.mem_iff.mp (List.mem_cons_self _ _)
    have hmax : ∀ x ∈ results, resKey x ≤ resKey s0 := by
      intro x hx
      have hx2 : x ∈ s0 :: tail := hperm.mem_iff.mpr hx
      rcases List.mem_cons.mp hx2 with rfl | hx3
      · exact le_rfl
      · exact stdSorted_head_key tail s0 hsort x hx3
    refine ⟨⟨hmemw, hmax⟩, ?_⟩
    intro v hv hstrict
    by_contra hne
    have h1 : resKey s0 < resKey v := hstrict s0 hmemw hne
    have h2 : resKey v ≤ resKey s0 := hmax v hv
    omega

/-- Witness for C2 (amended): in the spec tie-break scenario {error, NOERROR with 1
answer, NOERROR with 3 answers}, the three-answer result is a possible winner and ranks
maximal; by the uniqueness clause it is the only possible winner. -/
theorem c2_parallel_wait_all_witness :
    res3 ∈ results3 ∧ ∀ x ∈ results3, resKey x ≤ resKey res3 :=
  (c2_parallel_wait_all_amended results3 res3
    ⟨[res3, resA, resErr], by decide,
      by
        unfold StdSorted
        exact List.chain'_cons.mpr ⟨by decide,
          List.chain'_cons.mpr ⟨by decide, List.chain'_singleton _⟩⟩, rfl⟩).1

/-- When the candidate scan selects nothing, every candidate has a known RTT. -/
theorem scanCandidates_fst_none :
    ∀ (pool : List Upstream) (ws : List ℚ),
      (scanCandidates pool ws).1 = none → ∀ u ∈ pool, u.rtt ≠ none := by
  intro pool
  induction pool with
  | nil =>
    intro ws _ u hu
    simp at hu
  | cons u0 us ih =>
    intro ws h u hu
    cases h0 : u0.rtt with
    | none => simp [scanCandidates, h0] at h
    | some r =>
      simp only [scanCandidates, h0, Option.map_eq_none'] at h
      rcases List.mem_cons.mp hu with rfl | hu2
      · simp [h0]
      · exact ih ws.tail h u hu2

/-- When the candidate scan selects an index, it is the first candidate in encounter
order whose RTT estimate is unset. -/
theorem scanCandidates_fst_some :
    ∀ (pool : List Upstream) (ws : List ℚ) (i : Nat),
      (scanCandidates pool ws).1 = some i →
      i < pool.length ∧ ∃ u, pool.get? i = some u ∧ u.rtt = none ∧
        ∀ x ∈ pool.take i, x.rtt ≠ none := by
  intro pool
  induction pool with
  | nil =>
    intro ws i h
    simp [scanCandidates] at h
  | cons u0 us ih =>
    intro ws i h
    cases h0 : u0.rtt with
    | none =>
      simp only [scanCandidates, h0, Option.some.injEq] at h
      subst h
      exact ⟨by simp, u0, rfl, h0, by simp⟩
    | some r =>
      simp only [scanCandidates, h0, Option.map_eq_some'] at h
      obtain ⟨j, hj, rfl⟩ := h
      obtain ⟨hlt, u, hget, hrtt, htake⟩ := ih ws.tail j hj
      refine ⟨by simpa using hlt, u, by simpa using hget, hrtt, ?_⟩
      intro x hx
      rw [List.take_succ_cons] at hx
      rcases List.mem_cons.mp hx with rfl | hx2
      · simp [h0]
      · exact htake x hx2

/-- When every candidate has a known RTT, a scan over the all-ones initial weights
produces exactly the weights 1 / rtt, in candidate order, and selects nothing. -/
theorem scanCandidates_weights_all_known :
    ∀ (pool : List Upstream), (∀ u ∈ pool, u.rtt ≠ none) →
      scanCandidates pool (List.replicate pool.length 1) =
        (none, pool.map fun u => 1 / ((u.rtt.getD 1 : Nat) : ℚ)) := by
  intro pool
  induction pool with
  | nil =>
    intro _
    rfl
  | cons u0 us ih =>
    intro h
    cases h0 : u0.rtt with
    | none => exact absurd h0 (h u0 (List.mem_cons_self _ _))
    | some r =>
      have hrec := ih (fun u hu => h u (List.mem_cons_of_mem _ hu))
      simp [scanCandidates, h0, List.replicate_succ, hrec]

/-- The element `getD` falls back to the list head is always a member. -/
theorem getD_head_mem (a : α) (l : List α) (i : Nat) : (a :: l).getD i a ∈ a :: l := by
  cases hg : (a :: l)[i]? with
  | none => simp [List.getD, hg]
  | some x =>
    have hx : x ∈ a :: l := by
      have hg2 : (a :: l).get? i = some x := by
        rw [List.get?_eq_getElem?, hg]
      exact List.get?_mem hg2
    simp [List.getD, hg, hx]

/-- Within bounds, `getD` is `get`. -/
theorem getD_eq_get (l : List α) (d : α) (i : Nat) (h : i < l.length) :
    l.getD i d = l.get ⟨i, h⟩ := by
  simp [List.getD, List.getElem?_eq_getElem h, List.get_eq_getElem]

/-- Putting back the removed element, swap-with-back-and-pop is a permutation. -/
theorem swapRemove_cons_perm :
    ∀ (l : List α) (i : Nat) (h : i < l.length),
      ((l.get ⟨i, h⟩) :: swapRemove l i).Perm l := by
  intro l
  induction l with
  | nil =>
    intro i h
    simp at h
  | cons a as ih =>
    intro i h
    cases as with
    | nil =>
      have h0 : i = 0 := by
        simp only [List.length_cons, List.length_nil] at h
        omega
      subst h0
      simp [swapRemove]
    | cons b bs =>
      cases i with
      | zero =>
        have hsr : swapRemove (a :: b :: bs) 0 =
            List.getLast (b :: bs) (List.cons_ne_nil b bs) :: (b :: bs).dropLast := by
          simp [swapRemove, List.getLast_cons (List.cons_ne_nil b bs), List.dropLast_cons₂]
        rw [hsr]
        show (a :: List.getLast (b :: bs) (List.cons_ne_nil b bs) :: (b :: bs).dropLast).Perm
          (a :: b :: bs)
        refine List.Perm.cons a ?_
        have hperm := List.perm_append_singleton
          (List.getLast (b :: bs) (List.cons_ne_nil b bs)) ((b :: bs).dropLast)
        rw [List.dropLast_append_getLast (List.cons_ne_nil b bs)] at hperm
        exact hperm.symm
      | succ j =>
        have hj : j < (b :: bs).length := by
          simp only [List.length_cons] at h ⊢
          omega
        have hset : ((b :: bs).set j
            (List.getLast (b :: bs) (List.cons_ne_nil b bs))) ≠ [] := by
          intro hemp
          have := congrArg List.length hemp
          simp at this
        have hsr : swapRemove (a :: b :: bs) (j + 1) = a :: swapRemove (b :: bs) j := by
          simp only [swapRemove, List.getLast_cons (List.cons_ne_nil b bs), List.set_cons_succ]
          exact List.dropLast_cons_of_ne_nil hset
        rw [hsr]
        show ((b :: bs).get ⟨j, hj⟩ :: a :: swapRemove (b :: bs) j).Perm (a :: b :: bs)
        exact (List.Perm.swap a _ _).trans (List.Perm.cons a (ih j hj))

/-- When every candidate RTT is known, the first round of the weighted loop draws from
the weight vector 1 / rtt over the pool, whatever the exchange outcomes are. -/
theorem weightedLoopAux_first_draw (penalty : Nat) (oracle : List Nat) (fuel : Nat)
    (u0 : Upstream) (rest : List Upstream) (le : Option DnsError)
    (hall : ∀ u ∈ u0 :: rest, u.rtt ≠ none) :
    (weightedLoopAux penalty (fuel + 1) oracle (u0 :: rest)
        (List.replicate (u0 :: rest).length 1) le).draws.head? =
      some (u0 :: rest, (u0 :: rest).map fun u => 1 / ((u.rtt.getD 1 : Nat) : ℚ)) := by
  rw [weightedLoopAux]
  simp only
  rw [scanCandidates_weights_all_known (u0 :: rest) hall]
  simp only
  cases hres : (do_upstream_exchange
      ((u0 :: rest).getD (min (oracle.headD 0) rest.length) u0) penalty).result with
  | ok p => simp [hres]
  | error e =>
    by_cases he : e = DnsError.timedOut
    · simp [hres, he]
    · simp [hres, he]

/-- When the selected candidate times out, the weighted loop aborts: it returns the
timeout error after that single query. -/
theorem weightedLoopAux_timeout (penalty : Nat) (oracle : List Nat) (fuel : Nat)
    (u0 : Upstream) (rest : List Upstream) (ws : List ℚ) (le : Option DnsError)
    (hto : ∀ u ∈ u0 :: rest, (do_upstream_exchange u penalty).result = .error .timedOut) :
    (weightedLoopAux penalty (fuel + 1) oracle (u0 :: rest) ws le).outcome =
      .returned (.error .timedOut) ∧
    (weightedLoopAux penalty (fuel + 1) oracle (u0 :: rest) ws le).queried.length = 1 := by
  rw [weightedLoopAux]
  simp only
  cases hscan : (scanCandidates (u0 :: rest) ws).1 with
  | some i =>
    have hres := hto _ (getD_head_mem u0 rest i)
    rw [hres]
    simp
  | none =>
    have hres := hto _ (getD_head_mem u0 rest (min (oracle.headD 0) rest.length))
    rw [hres]
    simp

theorem weightedLoopAux_drain (penalty : Nat) (e : DnsError) (he : ¬ e = .timedOut) :
    ∀ (fuel : Nat) (oracle : List Nat) (pool : List Upstream) (ws : List ℚ)
      (le : Option DnsError),
      pool.length ≤ fuel →
      (∀ u ∈ pool, (do_upstream_exchange u penalty).result = .error e) →
      ((weightedLoopAux penalty fuel oracle pool ws le).queried.map Prod.fst).Perm
        (pool.map fun u => u.usId) ∧
      (weightedLoopAux penalty fuel oracle pool ws le).outcome =
        .exhausted (if pool.isEmpty then le else some e) := by
  intro fuel
  induction fuel with
  | zero =>
    intro oracle pool ws le hlen hfail
    have hp : pool = [] := List.length_eq_zero.mp (Nat.le_zero.mp hlen)
    subst hp
    simp [weightedLoopAux]
  | succ n ih =>
    intro oracle pool ws le hlen hfail
    cases pool with
    | nil => simp [weightedLoopAux]
    | cons u0 rest =>
      rw [weightedLoopAux]
      simp only
      cases hscan : (scanCandidates (u0 :: rest) ws).1 with
      | some i =>
        obtain ⟨hlt, -⟩ := scanCandidates_fst_some (u0 :: rest) ws i hscan
        have hres := hfail _ (getD_head_mem u0 rest i)
        rw [hres]
        simp only []
        rw [if_neg he]
        have hsubfail : ∀ u ∈ swapRemove (u0 :: rest) i,
            (do_upstream_exchange u penalty).result = .error e := by
          intro x hx
          exact hfail x ((swapRemove_cons_perm (u0 :: rest) i hlt).mem_iff.mp
            (List.mem_cons_of_mem _ hx))
        have hsublen : (swapRemove (u0 :: rest) i).length ≤ n := by
          rw [swapRemove_length]
          simp only [List.length_cons] at hlen ⊢
          omega
        obtain ⟨hq, ho⟩ := ih oracle (swapRemove (u0 :: rest) i)
          (swapRemove (scanCandidates (u0 :: rest) ws).2 i) (some e) hsublen hsubfail
        constructor
        · simp only [List.map_cons]
          rw [getD_eq_get (u0 :: rest) u0 i hlt]
          have hperm2 := (swapRemove_cons_perm (u0 :: rest) i hlt).map (fun u => u.usId)
          simp only [List.map_cons] at hperm2
          exact List.Perm.trans (List.Perm.cons _ hq) hperm2
        · simp only
          rw [ho]
          simp
      | none =>
        have hlt : min (oracle.headD 0) rest.length < (u0 :: rest).length := by
          have := Nat.min_le_right (oracle.headD 0) rest.length
          simp only [List.length_cons]
          omega
        have hres := hfail _ (getD_head_mem u0 rest (min (oracle.headD 0) rest.length))
        rw [hres]
        simp only []
        rw [if_neg he]
        have hsubfail : ∀ u ∈ swapRemove (u0 :: rest) (min (oracle.headD 0) rest.length),
            (do_upstream_exchange u penalty).result = .error e := by
          intro x hx
          exact hfail x
            ((swapRemove_cons_perm (u0 :: rest) (min (oracle.headD 0) rest.length) hlt).mem_iff.mp
              (List.mem_cons_of_mem _ hx))
        have hsublen : (swapRemove (u0 :: rest) (min (oracle.headD 0) rest.length)).length ≤ n := by
          rw [swapRemove_length]
          simp only [List.length_cons] at hlen ⊢
          omega
        obtain ⟨hq, ho⟩ := ih oracle.tail
          (swapRemove (u0 :: rest) (min (oracle.headD 0) rest.length))
          (swapRemove (scanCandidates (u0 :: rest) ws).2 (min (oracle.headD 0) rest.length))
          (some e) hsublen hsubfail
        constructor
        · simp only [List.map_cons]
          rw [getD_eq_get (u0 :: rest) u0 (min (oracle.headD 0) rest.length) hlt]
          have hperm2 := (swapRemove_cons_perm (u0 :: rest)
            (min (oracle.headD 0) rest.length) hlt).map (fun u => u.usId)
          simp only [List.map_cons] at hperm2
          exact List.Perm.trans (List.Perm.cons _ hq) hperm2
        · simp only
          rw [ho]
          simp


/-- Refutes C7 as stated: the claim says every random draw uses a discrete distribution
with weight 1 / rtt_ms per upstream. In the run `c7run` (RTTs 2, 4, 8 ms; the first drawn
candidate fails with a non-timeout error and is disqualified), the second draw happens
over the pool {8 ms, 4 ms} with accumulated weights [1/64, 1/16] — the scan divides by
the RTT again each round — which is not proportional to [1/8, 1/4], so no rescaling `c`
makes it the claimed 1 / rtt distribution. -/
theorem c7_weighted_selection_counterexample :
    c7run.draws.getD 1 ([], []) = ([uOk8, uOk4], [1 / 64, 1 / 16]) ∧
    ¬ ∃ c : ℚ, c ≠ 0 ∧
      (c7run.draws.getD 1 ([], [])).2 =
        (c7run.draws.getD 1 ([], [])).1.map (fun u => c / ((u.rtt.getD 1 : Nat) : ℚ)) := by
  have heq : c7run.draws.getD 1 ([], []) = ([uOk8, uOk4], [1 / 64, 1 / 16]) := by
    norm_num [c7run, weightedLoop, weightedLoopAux, scanCandidates, collect_upstreams,
      do_upstream_exchange, Upstream.attempt, retriableError, update_rtt_estimate,
      swapRemove, uFail2, uOk4, uOk8, pktOk]
    rw [if_neg (by decide : ¬ (DnsError.internalError = DnsError.timedOut))]
    norm_num [List.getD]
  refine ⟨heq, ?_⟩
  rintro ⟨c, hc, hmap⟩
  rw [heq] at hmap
  simp only [List.map_cons, List.map_nil, uOk8, uOk4] at hmap
  rw [List.cons_eq_cons] at hmap
  obtain ⟨h1, h2⟩ := hmap
  rw [List.cons_eq_cons] at h2
  obtain ⟨h2, -⟩ := h2
  norm_num at h1 h2
  rw [div_eq_div_iff (by norm_num) (by norm_num)] at h1
  rw [div_eq_div_iff (by norm_num) (by norm_num)] at h2
  linarith

/-- C7 (amended): in the weighted random selection loop, (1) the scan selects the first
candidate in encounter order whose RTT estimate is unset, and draws only when every
candidate has a known RTT; (2) the FIRST random draw (entered with the all-ones initial
weights) uses exactly the weights 1 / rtt_ms; later draws instead use the accumulated
weights, divided by the RTT once per scan round (see the counterexample); (3) a timeout
failure aborts the loop after the single query, returning the timeout error; (4) a
non-timeout failure only disqualifies the selected candidate: when every candidate fails
with such an error, every pool member is queried exactly once and the loop exhausts with
that error. -/
theorem c7_weighted_selection_amended :
    (∀ (pool : List Upstream) (ws : List ℚ) (i : Nat),
      (scanCandidates pool ws).1 = some i →
      i < pool.length ∧ ∃ u, pool.get? i = some u ∧ u.rtt = none ∧
        ∀ x ∈ pool.take i, x.rtt ≠ none) ∧
    (∀ (pool : List Upstream) (ws : List ℚ),
      (scanCandidates pool ws).1 = none → ∀ u ∈ pool, u.rtt ≠ none) ∧
    (∀ (penalty : Nat) (oracle : List Nat) (pool : List Upstream) (le : Option DnsError),
      pool ≠ [] → (∀ u ∈ pool, u.rtt ≠ none) →
      (weightedLoop penalty oracle pool (List.replicate pool.length 1) le).draws.head? =
        some (pool, pool.map fun u => 1 / ((u.rtt.getD 1 : Nat) : ℚ))) ∧
    (∀ (penalty : Nat) (oracle : List Nat) (pool : List Upstream) (ws : List ℚ)
      (le : Option DnsError), pool ≠ [] →
      (∀ u ∈ pool, (do_upstream_exchange u penalty).result = .error .timedOut) →
      (weightedLoop penalty oracle pool ws le).outcome = .returned (.error .timedOut) ∧
      (weightedLoop penalty oracle pool ws le).queried.length = 1) ∧
    (∀ (penalty : Nat) (oracle : List Nat) (pool : List Upstream) (ws : List ℚ)
      (e : DnsError), ¬ e = .timedOut → pool ≠ [] →
      (∀ u ∈ pool, (do_upstream_exchange u penalty).result = .error e) →
      ((weightedLoop penalty oracle pool ws none).queried.map Prod.fst).Perm
        (pool.map fun u => u.usId) ∧
      (weightedLoop penalty oracle pool ws none).outcome = .exhausted (some e)) := by
  refine ⟨scanCandidates_fst_some, scanCandidates_fst_none, ?_, ?_, ?_⟩
  · intro penalty oracle pool le hpool hall
    cases pool with
    | nil => exact absurd rfl hpool
    | cons u0 rest =>
      unfold weightedLoop
      simp only [List.length_cons]
      exact weightedLoopAux_first_draw penalty oracle rest.length u0 rest le hall
  · intro penalty oracle pool ws le hpool hto
    cases pool with
    | nil => exact absurd rfl hpool
    | cons u0 rest =>
      unfold weightedLoop
      simp only [List.length_cons]
      exact weightedLoopAux_timeout penalty oracle rest.length u0 rest ws le hto
  · intro penalty oracle pool ws e he hpool hfail
    have hmain := weightedLoopAux_drain penalty e he pool.length oracle pool ws none
      le_rfl hfail
    have hne : pool.isEmpty = false := by
      cases pool with
      | nil => exact absurd rfl hpool
      | cons a l => rfl
    rw [hne] at hmain
    simpa [weightedLoop] using hmain

/-- Witness for C7 (amended): a pool consisting of a single always-timing-out upstream
makes the loop return the timeout error after exactly one query. -/
theorem c7_weighted_selection_witness :
    (weightedLoop 50 [] [uTimeout] [1] none).outcome =
      WeightedOutcome.returned (.error .timedOut) :=
  (c7_weighted_selection_amended.2.2.2.1 50 [] [uTimeout] [1] none (by decide)
    (by
      intro u hu
      rw [List.mem_singleton] at hu
      subst hu
      rfl)).1



/-- A successful connection lookup returns a table member carrying the looked-up id. -/
theorem findConn_eq (st : SocksState) (id : Nat) (c : SocksConnection)
    (h : findConn st id = some c) : c ∈ st.connections ∧ c.connId = id := by
  unfold findConn at h
  refine ⟨List.mem_of_find?_eq_some h, ?_⟩
  have hp := List.find?_some h
  simpa using hp

/-- A successful association lookup returns an entry of the association map. -/
theorem lookupAssoc_eq (st : SocksState) (loop aid : Nat)
    (h : lookupAssoc st loop = some aid) : (loop, aid) ∈ st.udpAssociations := by
  unfold lookupAssoc at h
  obtain ⟨e, he, h2⟩ := Option.map_eq_some'.mp h
  have hm := List.mem_of_find?_eq_some he
  have hp := List.find?_some he
  simp only [beq_iff_eq] at hp
  obtain ⟨e1, e2⟩ := e
  simp only at hp h2
  subst hp
  subst h2
  exact hm

/-- Adding one fresh connection (id taken from the generator) preserves well-formedness. -/
theorem socksWF_cons_fresh (st : SocksState) (c : SocksConnection)
    (hwf : SocksWF st) (hc : c.connId = st.nextId) :
    SocksWF { connections := c :: st.connections,
              udpAssociations := st.udpAssociations, nextId := st.nextId + 1 } := by
  obtain ⟨hnodup, hanodup, hbound, habound⟩ := hwf
  refine ⟨?_, hanodup, ?_, ?_⟩
  · simp only [List.map_cons, List.nodup_cons]
    refine ⟨?_, hnodup⟩
    intro hmem
    obtain ⟨d, hd, hdid⟩ := List.mem_map.mp hmem
    have := hbound d hd
    omega
  · intro x hx
    show x.connId < st.nextId + 1
    rcases List.mem_cons.mp hx with rfl | hx2
    · omega
    · have := hbound x hx2
      omega
  · intro e he
    show e.2 < st.nextId + 1
    have := habound e he
    omega

/-- Restricting both tables to sublists preserves well-formedness. -/
theorem socksWF_of_sublists (st : SocksState) (conns : List SocksConnection)
    (assocs : List (Nat × Nat)) (hc : conns.Sublist st.connections)
    (ha : assocs.Sublist st.udpAssociations) (hwf : SocksWF st) :
    SocksWF { connections := conns, udpAssociations := assocs, nextId := st.nextId } := by
  obtain ⟨hnodup, hanodup, hbound, habound⟩ := hwf
  refine ⟨?_, ?_, ?_, ?_⟩
  · exact List.Nodup.sublist (hc.map _) hnodup
  · exact List.Nodup.sublist (ha.map _) hanodup
  · intro c hcm
    exact hbound c (hc.subset hcm)
  · intro e he
    exact habound e (ha.subset he)

/-- Starting a UDP association adds the control connection and the flow entry with fresh
ids and keeps at most one association per loop. -/
theorem startUdpAssociation_wf (st : SocksState) (loop : Nat) (flow : SocksConnection)
    (hwf : SocksWF st) (hflow : flow.connId = st.nextId) :
    SocksWF (startUdpAssociation st loop flow) := by
  obtain ⟨hnodup, hanodup, hbound, habound⟩ := hwf
  unfold startUdpAssociation
  simp only []
  by_cases hfound : (st.udpAssociations.find? (fun e => e.1 == loop)).isSome
  · rw [if_pos hfound]
    refine ⟨?_, ?_, ?_, ?_⟩
    · simp only [List.map_cons, List.nodup_cons, List.mem_cons, List.mem_map]
      refine ⟨?_, ?_, hnodup⟩
      · rintro (h1 | ⟨d, hd, hdid⟩)
        · omega
        · have := hbound d hd
          omega
      · rintro ⟨d, hd, hdid⟩
        have := hbound d hd
        omega
    · have hkeys : ((st.udpAssociations.map
          (fun e => if e.1 == loop then (loop, st.nextId + 1) else e)).map (fun e => e.1)) =
          st.udpAssociations.map (fun e => e.1) := by
        rw [List.map_map]
        apply List.map_congr_left
        intro e _
        by_cases h : e.1 = loop
        · simp [h]
        · simp [h]
      rw [hkeys]
      exact hanodup
    · intro c hcm
      show c.connId < st.nextId + 2
      rcases List.mem_cons.mp hcm with rfl | hcm2
      · simp only
        omega
      · rcases List.mem_cons.mp hcm2 with rfl | hcm3
        · omega
        · have := hbound c hcm3
          omega
    · intro e he
      show e.2 < st.nextId + 2
      obtain ⟨d, hd, hde⟩ := List.mem_map.mp he
      by_cases h : d.1 = loop
      · simp only [h, beq_self_eq_true, if_true] at hde
        subst hde
        omega
      · have hne : (d.1 == loop) = false := by
          simpa using h
        rw [hne] at hde
        simp only [Bool.false_eq_true, if_false] at hde
        subst hde
        have := habound d hd
        omega
  · rw [if_neg hfound]
    refine ⟨?_, ?_, ?_, ?_⟩
    · simp only [List.map_cons, List.nodup_cons, List.mem_cons, List.mem_map]
      refine ⟨?_, ?_, hnodup⟩
      · rintro (h1 | ⟨d, hd, hdid⟩)
        · omega
        · have := hbound d hd
          omega
      · rintro ⟨d, hd, hdid⟩
        have := hbound d hd
        omega
    · simp only [List.map_cons, List.nodup_cons]
      refine ⟨?_, hanodup⟩
      intro hmem
      obtain ⟨d, hd, hdid⟩ := List.mem_map.mp hmem
      rw [Option.not_isSome_iff_eq_none] at hfound
      have := List.find?_eq_none.mp hfound d hd
      simp only [beq_iff_eq] at this
      exact this hdid
    · intro c hcm
      show c.connId < st.nextId + 2
      rcases List.mem_cons.mp hcm with rfl | hcm2
      · simp only
        omega
      · rcases List.mem_cons.mp hcm2 with rfl | hcm3
        · omega
        · have := hbound c hcm3
          omega
    · intro e he
      show e.2 < st.nextId + 2
      rcases List.mem_cons.mp he with rfl | he2
      · simp only
        omega
      · have := habound e he2
        omega

/-- Connecting a new UDP flow preserves well-formedness, in particular the
one-association-per-loop invariant. -/
theorem connect_udp_flow_wf (st : SocksState) (loop : Nat) (hwf : SocksWF st) :
    SocksWF (connect_udp_flow st loop).1 := by
  unfold connect_udp_flow
  simp only []
  cases hla : lookupAssoc st loop with
  | none =>
    exact startUdpAssociation_wf st loop
      { connId := st.nextId, loop := loop, proto := .udp, state := .idle } hwf rfl
  | some aid =>
    simp only []
    cases hfc : findConn st aid with
    | none =>
      exact startUdpAssociation_wf st loop
        { connId := st.nextId, loop := loop, proto := .udp, state := .idle } hwf rfl
    | some ac =>
      simp only []
      by_cases hst : ac.state ≠ ConnState.connected
      · rw [if_pos hst]
        exact socksWF_cons_fresh st _ hwf rfl
      · rw [if_neg hst]
        exact socksWF_cons_fresh st _ hwf rfl

/-- Closing a connection preserves well-formedness. -/
theorem close_connection_wf (st : SocksState) (id : Nat) (hwf : SocksWF st) :
    SocksWF (close_connection st id) := by
  unfold close_connection
  cases hfc : findConn st id with
  | none => exact hwf
  | some conn =>
    simp only []
    split
    · exact socksWF_of_sublists st _ _ (List.filter_sublist _) (List.Sublist.refl _) hwf
    · split
      · exact socksWF_of_sublists st _ _ (List.filter_sublist _) (List.Sublist.refl _) hwf
      · split
        · exact socksWF_of_sublists st _ _ (List.filter_sublist _) (List.Sublist.refl _) hwf
        · split
          · exact socksWF_of_sublists st _ _ (List.filter_sublist _) (List.Sublist.refl _) hwf
          · exact socksWF_of_sublists st _ _
              ((List.filter_sublist _).trans (List.filter_sublist _)) (List.filter_sublist _) hwf

/-- When the loop already has an association whose control connection is not yet
connected, a new UDP flow is parked in `ConnectingSocket` and no second association is
created. -/
theorem connect_udp_flow_parked (st : SocksState) (loop aid : Nat) (ac : SocksConnection)
    (hla : lookupAssoc st loop = some aid) (hfc : findConn st aid = some ac)
    (hst : ac.state ≠ ConnState.connected) :
    (connect_udp_flow st loop).2 = UdpConnectOutcome.parked ∧
    (connect_udp_flow st loop).1.udpAssociations = st.udpAssociations ∧
    (connect_udp_flow st loop).1.connections =
      { connId := st.nextId, loop := loop, proto := TransportProtocol.udp,
        state := ConnState.connectingSocket } :: st.connections := by
  unfold connect_udp_flow
  simp only [hla, hfc]
  rw [if_pos hst]
  exact ⟨rfl, rfl, rfl⟩

/-- Closing the last UDP flow of a loop removes the association entry and its control
connection together. -/
theorem close_connection_last_udp (st : SocksState) (cid aid : Nat)
    (conn ac : SocksConnection)
    (hfc : findConn st cid = some conn) (hudp : conn.proto = TransportProtocol.udp)
    (hla : lookupAssoc st conn.loop = some aid) (hac : findConn st aid = some ac)
    (hactcp : ac.proto = TransportProtocol.tcp)
    (honly : ∀ c ∈ st.connections, c.connId ≠ cid →
      ¬ (c.loop = conn.loop ∧ c.proto = TransportProtocol.udp)) :
    lookupAssoc (close_connection st cid) conn.loop = none ∧
    findConn (close_connection st cid) aid = none ∧
    findConn (close_connection st cid) cid = none := by
  have haidcid : aid ≠ cid := by
    intro h
    rw [h, hfc] at hac
    have h2 : conn = ac := by injection hac
    rw [← h2, hudp] at hactcp
    exact absurd hactcp (by decide)
  obtain ⟨hacmem, hacid⟩ := findConn_eq st aid ac hac
  have hacst1 : ac ∈ st.connections.filter (fun c => c.connId != cid) := by
    refine List.mem_filter.mpr ⟨hacmem, ?_⟩
    simp [hacid, haidcid]
  have hne : st.connections.filter (fun c => c.connId != cid) ≠ [] :=
    List.ne_nil_of_mem hacst1
  have hempty : (st.connections.filter (fun c => c.connId != cid)).isEmpty = false := by
    cases hl : st.connections.filter (fun c => c.connId != cid) with
    | nil => exact absurd hl hne
    | cons a t => rfl
  have hothers : (st.connections.filter (fun c => c.connId != cid)).any
      (fun c => c.loop == conn.loop && c.proto == TransportProtocol.udp) = false := by
    rw [List.any_eq_false]
    intro x hx
    have hmem := List.mem_filter.mp hx
    have hne2 : x.connId ≠ cid := by simpa using hmem.2
    have hnc := honly x hmem.1 hne2
    simp only [Bool.and_eq_true, beq_iff_eq]
    exact hnc
  obtain ⟨x, hxfind⟩ := Option.isSome_iff_exists.mp
    (List.find?_isSome.mpr ⟨ac, hacst1, by simp [hacid]⟩
      : (List.find? (fun c => c.connId == aid)
          (st.connections.filter (fun c => c.connId != cid))).isSome)
  have hlaraw : (List.find? (fun e => e.1 == conn.loop) st.udpAssociations).map
      (fun e => e.2) = some aid := hla
  have hclose : close_connection st cid =
      { connections := (st.connections.filter (fun c => c.connId != cid)).filter
          (fun c => c.connId != aid),
        udpAssociations := st.udpAssociations.filter (fun e => e.1 != conn.loop),
        nextId := st.nextId } := by
    unfold close_connection
    simp only [hfc]
    rw [if_neg (by rw [hudp]; exact fun h => h rfl
      : ¬ conn.proto ≠ TransportProtocol.udp)]
    simp only [lookupAssoc, findConn]
    rw [hothers, hempty]
    simp only [Bool.or_self, Bool.false_eq_true, if_false]
    rw [hlaraw]
    simp only []
    rw [hxfind]
  refine ⟨?_, ?_, ?_⟩
  · rw [hclose]
    simp only [lookupAssoc]
    rw [List.find?_eq_none.mpr ?_]
    · rfl
    · intro e he
      have hmem := List.mem_filter.mp he
      have : e.1 ≠ conn.loop := by simpa using hmem.2
      simpa using this
  · rw [hclose]
    simp only [findConn]
    apply List.find?_eq_none.mpr
    intro c hc
    have hmem := List.mem_filter.mp hc
    have : c.connId ≠ aid := by simpa using hmem.2
    simpa using this
  · rw [hclose]
    simp only [findConn]
    apply List.find?_eq_none.mpr
    intro c hc
    have hmem := List.mem_filter.mp hc
    have hmem2 := List.mem_filter.mp hmem.1
    have : c.connId ≠ cid := by simpa using hmem2.2
    simpa using this

/-- C3: for each event loop at most one SOCKS5 UDP association exists at any time (the
well-formedness invariant, which includes uniqueness of the per-loop association entry,
is preserved by both `connect_udp_flow` and `close_connection`); a new UDP flow arriving
while the association control connection is in any state other than `Connected` is parked
in `ConnectingSocket` without touching the association table; and closing the last UDP
flow of a loop removes the association entry and its control connection together. -/
theorem c3_socks_udp_association (st : SocksState) (loop cid aid : Nat)
    (conn ac : SocksConnection) (hwf : SocksWF st) :
    (SocksWF (connect_udp_flow st loop).1 ∧ SocksWF (close_connection st cid)) ∧
    (lookupAssoc st loop = some aid → findConn st aid = some ac →
      ac.state ≠ ConnState.connected →
      (connect_udp_flow st loop).2 = UdpConnectOutcome.parked ∧
      (connect_udp_flow st loop).1.udpAssociations = st.udpAssociations ∧
      (connect_udp_flow st loop).1.connections =
        { connId := st.nextId, loop := loop, proto := TransportProtocol.udp,
          state := ConnState.connectingSocket } :: st.connections) ∧
    (findConn st cid = some conn → conn.proto = TransportProtocol.udp →
      lookupAssoc st conn.loop = some aid → findConn st aid = some ac →
      ac.proto = TransportProtocol.tcp →
      (∀ c ∈ st.connections, c.connId ≠ cid →
        ¬ (c.loop = conn.loop ∧ c.proto = TransportProtocol.udp)) →
      lookupAssoc (close_connection st cid) conn.loop = none ∧
      findConn (close_connection st cid) aid = none ∧
      findConn (close_connection st cid) cid = none) := by
  refine ⟨⟨connect_udp_flow_wf st loop hwf, close_connection_wf st cid hwf⟩, ?_, ?_⟩
  · intro h1 h2 h3
    exact connect_udp_flow_parked st loop aid ac h1 h2 h3
  · intro h1 h2 h3 h4 h5 h6
    exact close_connection_last_udp st cid aid conn ac h1 h2 h3 h4 h5 h6

/-- Witness for `c3_socks_udp_association` at the state where an association for loop 7
has been started but its control connection is still connecting: the next flow is parked
with the association table unchanged, and closing the last UDP flow tears down both the
association entry and its control connection. -/
theorem c3_socks_udp_association_witness :
    (connect_udp_flow stAssocStarted 7).2 = UdpConnectOutcome.parked ∧
    (connect_udp_flow stAssocStarted 7).1.udpAssociations =
      stAssocStarted.udpAssociations ∧
    lookupAssoc (close_connection stAssocStarted 0) 7 = none ∧
    findConn (close_connection stAssocStarted 0) 1 = none ∧
    findConn (close_connection stAssocStarted 0) 0 = none := by
  have h := c3_socks_udp_association stAssocStarted 7 0 1
    { connId := 0, loop := 7, proto := TransportProtocol.udp, state := ConnState.idle }
    { connId := 1, loop := 7, proto := TransportProtocol.tcp,
      state := ConnState.connectingSocket }
    (by unfold SocksWF; decide)
  obtain ⟨-, hp, hc⟩ := h
  have hp2 := hp (by decide) (by decide) (by decide)
  have hc2 := hc (by decide) (by decide) (by decide) (by decide) (by decide) (by decide)
  exact ⟨hp2.1, hp2.2.1, hc2.1, hc2.2.1, hc2.2.2⟩


end DnsLibs
